import Mathlib

/-!
# qlstore: a gorilla/sessions store backed by the ql embedded database

A shallow embedding of `src/ql.go`.  The Go code talks to three collaborators
that are not part of the repository; each one is an explicit component of the
model:

* the `securecookie` codecs: four functions of `Env` (encode/decode of a
  session ID and of a value map), each a function of the codec list, the
  session name and the payload;
* the SQL database: the `sessions` table is the list `World.rows`, every
  statement that is issued is appended to `World.log`, and `Env.fault` says
  which stage (begin, exec, commit) of which statement fails;
* the HTTP layer: the response is the list `World.resp` of the cookies handed
  to `http.SetCookie`, a request is the list of cookies it carries.

`time.Now()` is `Env.clock` read at the counter `World.tick`; the random key
generator is `Env.randomB32` read at the counter `World.rng`.  A run-time
abort of the Go code (a failed type assertion) is the outcome `panicked`.
-/

namespace qlstore

/-! ## Data model -/

/-- Error values: `sql.ErrNoRows`, an error of a codec, an error of the SQL
driver. -/
inductive Err where
  | errNoRows
  | codec (n : Nat)
  | driver (n : Nat)
deriving DecidableEq, Repr

/-- What an entry of `session.Values` (an `interface{}`) can hold: nil, a
`time.Time` (nanoseconds on the time line), a string, a number. -/
inductive Value where
  | null
  | time (t : Int)
  | str (s : String)
  | num (n : Int)
deriving DecidableEq, Repr

/-- The map `session.Values`, with string keys. -/
abbrev Values := List (String × Value)

/-- Go map indexing `m[k]`: the zero value (nil) when the key is absent. -/
def Values.index (m : Values) (k : String) : Value :=
  (m.lookup k).getD Value.null

/-- The type `sessions.Options`. -/
structure Options where
  Path : String
  Domain : String
  MaxAge : Int
  Secure : Bool
  HttpOnly : Bool
deriving DecidableEq, Repr

/-- The type `http.Cookie`, with the fields that `sessions.NewCookie` copies
from the options. -/
structure Cookie where
  Name : String
  Value : String
  Path : String
  Domain : String
  MaxAge : Int
  Secure : Bool
  HttpOnly : Bool
deriving DecidableEq, Repr

/-- The function `sessions.NewCookie(name, value, options)`. -/
def NewCookie (name value : String) (o : Options) : Cookie :=
  { Name := name, Value := value, Path := o.Path, Domain := o.Domain,
    MaxAge := o.MaxAge, Secure := o.Secure, HttpOnly := o.HttpOnly }

/-- The type `sessions.Session`; `name` is what `session.Name()` returns. -/
structure Session where
  ID : String
  name : String
  Values : Values
  Options : Options
  IsNew : Bool
deriving DecidableEq, Repr

/-- The function `sessions.NewSession(store, name)`. In Go the `Options`
pointer is nil until the caller assigns it on the next lines; here the value
it assigns is a parameter. -/
def NewSession (name : String) (o : Options) : Session :=
  { ID := "", name := name, Values := [], Options := o, IsNew := false }

/-- The type `securecookie.SecureCookie`: its keys and its limits. -/
structure SecureCookie where
  keys : Nat
  maxAge : Int
  minAge : Int
  maxLength : Int
deriving DecidableEq, Repr

/-- The method `(*SecureCookie).MaxAge`. -/
def SecureCookie.MaxAge (sc : SecureCookie) (value : Int) : SecureCookie :=
  { sc with maxAge := value }

/-- A `securecookie.Codec`: a `*SecureCookie` or some other implementation of
the interface. -/
inductive Codec where
  | secure (sc : SecureCookie)
  | other (tag : Nat)
deriving DecidableEq, Repr

/-- The type `qlSession`, one row of the `sessions` table. -/
structure qlSession where
  Key : String
  Data : String
  CreatedOn : Int
  UpdatedOn : Int
  ExpiresOn : Int
deriving DecidableEq, Repr

/-- The statements of the record access layer, with their parameters. -/
inductive DbOp where
  | create (key data : String) (expiresOn : Int)
  | find (key : String)
  | update (key data : String)
  | delete (key : String)
deriving DecidableEq, Repr

/-- The three steps of a transaction: `db.Begin`, `tx.Exec`, `tx.Commit`. -/
inductive TxStage where
  | begin
  | exec
  | commit
deriving DecidableEq, Repr

/-- The collaborators of the store. `fault n op st` is the error with which
stage `st` of statement `op`, issued as statement number `n`, fails. -/
structure Env where
  clock : Nat → Int
  randomB32 : Nat → String
  fault : Nat → DbOp → TxStage → Option Err
  encodeID : List Codec → String → String → Except Err String
  decodeID : List Codec → String → String → Except Err String
  encodeValues : List Codec → String → Values → Except Err String
  decodeValues : List Codec → String → String → Except Err Values

/-- The mutable state: the fields of `QLStore` (`Codecs`, `Options`, and the
table behind `store`), the statements issued so far, the response, and the
read positions of the clock and of the random source. -/
structure World where
  Codecs : List Codec
  Options : Options
  rows : List qlSession
  log : List DbOp
  resp : List Cookie
  tick : Nat
  rng : Nat
deriving DecidableEq, Repr

/-- How a call ends: it returns an error value (nil is `none`) or it panics. -/
inductive Outcome where
  | ret (err : Option Err)
  | panicked
deriving DecidableEq, Repr

/-! ## Time -/

/-- Two's complement wrap-around of a 64-bit signed integer. -/
def wrap64 (x : Int) : Int :=
  (x + 2 ^ 63) % 2 ^ 64 - 2 ^ 63

/-- The constant `time.Second`, in nanoseconds. -/
def Second : Int := 1000000000

/-- The expression `time.Second * time.Duration(n)`, an `int64` product. -/
def secondsDuration (n : Int) : Int :=
  wrap64 (Second * wrap64 n)

/-- The method `Time.Add`. -/
def timeAdd (t d : Int) : Int := t + d

/-- The method `Time.Sub`: the difference, saturated to the range of a
`Duration`. -/
def timeSub (t u : Int) : Int :=
  if t - u > 2 ^ 63 - 1 then 2 ^ 63 - 1
  else if t - u < -(2 ^ 63) then -(2 ^ 63)
  else t - u

/-- The call `time.Now()` (also `now()` in a statement). -/
def timeNow (env : Env) (w : World) : Int × World :=
  (env.clock w.tick, { w with tick := w.tick + 1 })

/-! ## HTTP -/

/-- A request, as the cookies it carries. -/
abbrev Request := List Cookie

/-- The method `r.Cookie(name)`: the first cookie of that name, if any. -/
def Request.Cookie (r : Request) (name : String) : Option Cookie :=
  r.find? fun c => c.Name == name

/-- The function `http.SetCookie(w, cookie)`. -/
def SetCookie (w : World) (c : Cookie) : World :=
  { w with resp := w.resp ++ [c] }

/-! ## Record access -/

/-- The outcome of begin, exec, commit, in this order: the first error. -/
def txFault (env : Env) (n : Nat) (op : DbOp) : Option Err :=
  match env.fault n op TxStage.begin with
  | some e => some e
  | none =>
    match env.fault n op TxStage.exec with
    | some e => some e
    | none => env.fault n op TxStage.commit

/-- The method `(*qlSession).Create`: insert a row, with `created_on` and
`updated_on` read from the clock. -/
def qlSession.Create (env : Env) (s : qlSession) (w : World) : Option Err × World :=
  let op := DbOp.create s.Key s.Data s.ExpiresOn
  let w1 := { w with log := w.log ++ [op] }
  match txFault env w.log.length op with
  | some e => (some e, w1)
  | none =>
    let (c, w2) := timeNow env w1
    let (u, w3) := timeNow env w2
    (none, { w3 with rows := w3.rows ++
      [{ Key := s.Key, Data := s.Data, CreatedOn := c, UpdatedOn := u,
         ExpiresOn := s.ExpiresOn }] })

/-- The method `(*qlSession).FindByKey`: scan the first row with the key into
the receiver; `sql.ErrNoRows` when there is none. -/
def qlSession.FindByKey (env : Env) (s : qlSession) (w : World) :
    Option Err × qlSession × World :=
  let op := DbOp.find s.Key
  let w1 := { w with log := w.log ++ [op] }
  match env.fault w.log.length op TxStage.exec with
  | some e => (some e, s, w1)
  | none =>
    match w.rows.find? fun row => row.Key == s.Key with
    | none => (some Err.errNoRows, s, w1)
    | some row => (none, row, w1)

/-- The method `(*qlSession).Update`: the statement assigns `data` and
`updated_on` in the rows with the key, and nothing else. -/
def qlSession.Update (env : Env) (s : qlSession) (w : World) : Option Err × World :=
  let op := DbOp.update s.Key s.Data
  let w1 := { w with log := w.log ++ [op] }
  match txFault env w.log.length op with
  | some e => (some e, w1)
  | none =>
    let (u, w2) := timeNow env w1
    (none, { w2 with rows := w2.rows.map fun row =>
      if row.Key == s.Key then { row with Data := s.Data, UpdatedOn := u } else row })

/-- The method `(*qlSession).Delete`: remove the rows with the key. -/
def qlSession.Delete (env : Env) (s : qlSession) (w : World) : Option Err × World :=
  let op := DbOp.delete s.Key
  let w1 := { w with log := w.log ++ [op] }
  match txFault env w.log.length op with
  | some e => (some e, w1)
  | none => (none, { w1 with rows := w1.rows.filter fun row => !(row.Key == s.Key) })

/-! ## Store adapter -/

/-- The literal `qlSession{Key: id}` of `load` and `destroy`: only the key is
set. -/
def keyRecord (id : String) : qlSession :=
  { Key := id, Data := "", CreatedOn := 0, UpdatedOn := 0, ExpiresOn := 0 }

/-- The method `(*QLStore).MaxAge`: set the max-age of the options and of
every codec that is a `*SecureCookie`. -/
def MaxAge (w : World) (age : Int) : World :=
  { w with
    Options := { w.Options with MaxAge := age },
    Codecs := w.Codecs.map fun codec =>
      match codec with
      | Codec.secure sc => Codec.secure (sc.MaxAge age)
      | Codec.other tag => Codec.other tag }

/-- The method `(*QLStore).load`: find the row of `session.ID` and decode its
data into `session.Values`. -/
def load (env : Env) (w : World) (session : Session) : Option Err × Session × World :=
  match qlSession.FindByKey env (keyRecord session.ID) w with
  | (some e, _, w1) => (some e, session, w1)
  | (none, s, w1) =>
    match env.decodeValues w1.Codecs session.name s.Data with
    | Except.error e => (some e, session, w1)
    | Except.ok v => (none, { session with Values := v }, w1)

/-- The method `(*QLStore).New`. -/
def New (env : Env) (w : World) (r : Request) (name : String) :
    (Session × Option Err) × World :=
  let session := { NewSession name w.Options with IsNew := true }
  let (session, err, w) :=
    match r.Cookie name with
    | none => (session, none, w)
    | some c =>
      match env.decodeID w.Codecs name c.Value with
      | Except.error e => (session, some e, w)
      | Except.ok id =>
        match load env w { session with ID := id } with
        | (some e, session, w1) => (session, some e, w1)
        | (none, session, w1) => ({ session with IsNew := false }, none, w1)
  ((session, err), MaxAge w w.Options.MaxAge)

/-- The expiry computed in `(*QLStore).save`, lines 134-143: `none` when the
type assertion `exOn.(time.Time)` panics. The clock is read once, or twice
when the stored expiry is replaced. -/
def saveExpiresOn (env : Env) (w : World) (session : Session) : Option (Int × World) :=
  match session.Values.index "expires_on" with
  | Value.null =>
    let (now, w1) := timeNow env w
    some (timeAdd now (secondsDuration session.Options.MaxAge), w1)
  | Value.time expiresOn =>
    let (now, w1) := timeNow env w
    if timeSub expiresOn (timeAdd now (secondsDuration session.Options.MaxAge)) < 0 then
      let (now2, w2) := timeNow env w1
      some (timeAdd now2 (secondsDuration session.Options.MaxAge), w2)
    else
      some (expiresOn, w1)
  | _ => none

/-- The record that `(*QLStore).save` builds (lines 144-148) once the expiry
is known. -/
def saveRecord (session : Session) (encoded : String) (expiresOn : Int) : qlSession :=
  { Key := session.ID, Data := encoded, CreatedOn := 0, UpdatedOn := 0,
    ExpiresOn := expiresOn }

/-- The end of `(*QLStore).save`, lines 149-152: `Create` for a new session,
`Update` otherwise. -/
def writeRecord (env : Env) (w : World) (session : Session) (s : qlSession) :
    Outcome × World :=
  if session.IsNew then
    let (err, w1) := s.Create env w
    (Outcome.ret err, w1)
  else
    let (err, w1) := s.Update env w
    (Outcome.ret err, w1)

/-- What lines 129-148 of `(*QLStore).save` end in: the error of the value
encoding, a panic of the type assertion, or the record `s` that is handed to
Create/Update, with the state in which it is handed over. -/
inductive Built where
  | failed (err : Err)
  | panicked
  | record (s : qlSession) (w : World)
deriving DecidableEq, Repr

/-- Lines 129-148 of `(*QLStore).save`: encode the values, compute the expiry,
build the record `s`. -/
def buildRecord (env : Env) (w : World) (session : Session) : Built :=
  match env.encodeValues w.Codecs session.name session.Values with
  | Except.error e => Built.failed e
  | Except.ok encoded =>
    match saveExpiresOn env w session with
    | none => Built.panicked
    | some (expiresOn, w1) => Built.record (saveRecord session encoded expiresOn) w1

/-- The method `(*QLStore).save`: build the record `s`, then `s.Create` or
`s.Update`. -/
def save (env : Env) (w : World) (session : Session) : Outcome × World :=
  match buildRecord env w session with
  | Built.failed e => (Outcome.ret (some e), w)
  | Built.panicked => (Outcome.panicked, w)
  | Built.record s w1 => writeRecord env w1 session s

/-- The method `(*QLStore).destroy`: write the expired cookie, clear the
values, delete the row. -/
def destroy (env : Env) (w : World) (session : Session) : Option Err × Session × World :=
  let options := { w.Options with MaxAge := -1 }
  let w1 := SetCookie w (NewCookie session.name "" options)
  let session := { session with Values := [] }
  let (err, w2) := qlSession.Delete env (keyRecord session.ID) w1
  (err, session, w2)

/-- The method `(*QLStore).Delete`. -/
def Delete (env : Env) (w : World) (session : Session) : Option Err × Session × World :=
  destroy env w session

/-- The call `strings.TrimRight(s, "=")`. -/
def trimRightEq (s : String) : String :=
  String.mk (s.data.reverse.dropWhile fun c => c == '=').reverse

/-- The session ID that `Save` generates: the base32 text of 32 random bytes
without its padding. -/
def generateID (env : Env) (w : World) : String × World :=
  (trimRightEq (env.randomB32 w.rng), { w with rng := w.rng + 1 })

/-- Lines 96-101 of `(*QLStore).Save`: a session without an ID gets a
generated one. -/
def assignID (env : Env) (w : World) (session : Session) : Session × World :=
  if session.ID = "" then
    let (id, w1) := generateID env w
    ({ session with ID := id }, w1)
  else (session, w)

/-- The method `(*QLStore).Save`. -/
def Save (env : Env) (w : World) (session : Session) : Outcome × Session × World :=
  if session.Options.MaxAge < 0 then
    match Delete env w session with
    | (some e, session, w1) => (Outcome.ret (some e), session, w1)
    | (none, session, w1) =>
      (Outcome.ret none, session, SetCookie w1 (NewCookie session.name "" session.Options))
  else
    let (session, w) := assignID env w session
    match save env w session with
    | (Outcome.panicked, w1) => (Outcome.panicked, session, w1)
    | (Outcome.ret (some e), w1) => (Outcome.ret (some e), session, w1)
    | (Outcome.ret none, w1) =>
      match env.encodeID w1.Codecs session.name session.ID with
      | Except.error e => (Outcome.ret (some e), session, w1)
      | Except.ok encoded =>
        (Outcome.ret none, session, SetCookie w1 (NewCookie session.name encoded session.Options))

/-! ## Concrete collaborators, for evaluating the code

A codec that writes a session ID as it is and knows two value maps by name,
a database that fails where stated, a clock that advances by one nanosecond
per reading, and a random source. -/

/-- The reading of the clock at the first tick: 1000 seconds. -/
def demoStart : Int := 1000000000000

/-- A value map with one user entry. -/
def aliceValues : Values := [("user", Value.str "alice")]

/-- A value map whose `expires_on` entry holds a string. -/
def textExpiryValues : Values := [("expires_on", Value.str "tomorrow")]

/-- A value map whose `expires_on` entry holds a number. -/
def numberExpiryValues : Values := [("expires_on", Value.num 1700000000)]

/-- Encoding of value maps in the concrete codec: by table. -/
def demoEncodeValues (v : Values) : Except Err String :=
  if v = [] then Except.ok "empty"
  else if v = aliceValues then Except.ok "alice"
  else if v = textExpiryValues then Except.ok "text"
  else if v = numberExpiryValues then Except.ok "number"
  else Except.error (Err.codec 1)

/-- Decoding of value maps in the concrete codec: the inverse table. -/
def demoDecodeValues (d : String) : Except Err Values :=
  if d = "empty" then Except.ok []
  else if d = "alice" then Except.ok aliceValues
  else if d = "text" then Except.ok textExpiryValues
  else if d = "number" then Except.ok numberExpiryValues
  else Except.error (Err.codec 2)

/-- Collaborators that never fail on the database side. -/
def demoEnv : Env :=
  { clock := fun n => demoStart + n
    randomB32 := fun _ => "MFRGGZDF===="
    fault := fun _ _ _ => none
    encodeID := fun _ _ id => Except.ok id
    decodeID := fun _ _ v => if v = "" then Except.error (Err.codec 3) else Except.ok v
    encodeValues := fun _ _ v => demoEncodeValues v
    decodeValues := fun _ _ d => demoDecodeValues d }

/-- Collaborators whose database refuses to begin a delete transaction. -/
def deleteFailEnv : Env :=
  { demoEnv with
    fault := fun _ op st =>
      match op, st with
      | DbOp.delete _, TxStage.begin => some (Err.driver 7)
      | _, _ => none }

/-- The options of the concrete store: one hour. -/
def demoOptions : Options :=
  { Path := "/", Domain := "", MaxAge := 3600, Secure := false, HttpOnly := false }

/-- A store with one secure-cookie codec, an empty table and an empty
response. -/
def emptyWorld : World :=
  { Codecs := [Codec.secure { keys := 1, maxAge := 3600, minAge := 0, maxLength := 4096 }]
    Options := demoOptions
    rows := []
    log := []
    resp := []
    tick := 0
    rng := 0 }

/-! ## Derived notions used in the statements -/

/-- The cookie that `destroy` writes: empty, with the store's options and
max-age -1. -/
def expiredCookie (w : World) (session : Session) : Cookie :=
  NewCookie session.name "" { w.Options with MaxAge := -1 }

/-- The session that `New` starts from. -/
def freshSession (w : World) (name : String) : Session :=
  { ID := "", name := name, Values := [], Options := w.Options, IsNew := true }

/-- The keys of the rows of the table, in table order. -/
def keys (w : World) : List String :=
  w.rows.map fun row => row.Key

/-- The session as the handler passes it to `Save`: the one `New` returned,
with the values and the options set as the handler likes. -/
def edited (s : Session) (V : Values) (opts : Options) : Session :=
  { s with Values := V, Options := opts }

/-- One request that saves: `New`, then `Save` of the session that `New`
returned, with no other call on the store in between. -/
def handle (env : Env) (w : World) (r : Request) (name : String) (V : Values)
    (opts : Options) : Outcome × Session × World :=
  Save env (New env w r name).2 (edited (New env w r name).1.1 V opts)

/-- The lookup of `New` on this request neither meets a driver error nor
finds a row whose data does not decode. -/
def LookupSound (env : Env) (w : World) (r : Request) (name : String) : Prop :=
  ∀ c id, r.Cookie name = some c →
    env.decodeID w.Codecs name c.Value = Except.ok id →
    env.fault w.log.length (DbOp.find id) TxStage.exec = none ∧
    ∀ row, w.rows.find? (fun row => row.Key == id) = some row →
      ∃ v, env.decodeValues w.Codecs name row.Data = Except.ok v

/-- The assumption on the random source: if `Save` has to generate an ID for
this session, the ID it generates in this state is the key of no row. -/
def GeneratesFreshID (env : Env) (w : World) (session : Session) : Prop :=
  session.ID = "" → trimRightEq (env.randomB32 w.rng) ∉ keys w

/-- The states of the store reachable from an empty table by `MaxAge`, by
`New`, by `Delete` on any session, by `Save` on any session with IsNew=false,
and by requests that call `New` and then `Save` on the session it returned,
when the lookup of that `New` is sound and a generated ID is fresh. -/
inductive Reach (env : Env) : World → Prop where
  | init (w : World) : w.rows = [] → Reach env w
  | maxAge (w : World) (m : Int) : Reach env w → Reach env (MaxAge w m)
  | new (w : World) (r : Request) (name : String) :
      Reach env w → Reach env (New env w r name).2
  | delete (w : World) (session : Session) :
      Reach env w → Reach env (Delete env w session).2.2
  | saveResumed (w : World) (session : Session) :
      Reach env w → session.IsNew = false → Reach env (Save env w session).2.2
  | saveAfterNew (w : World) (r : Request) (name : String) (V : Values) (opts : Options) :
      Reach env w → LookupSound env w r name →
      GeneratesFreshID env (New env w r name).2 (New env w r name).1.1 →
      Reach env (handle env w r name V opts).2.2

/-- Collaborators whose random source yields two different keys. -/
def twoKeyEnv : Env :=
  { demoEnv with
    randomB32 := fun n => if n = 0 then "MFRGGZDF====" else "NBSWY3DP====" }

/-- Collaborators whose database fails every lookup. -/
def findFailEnv : Env :=
  { demoEnv with
    fault := fun _ op _ =>
      match op with
      | DbOp.find _ => some (Err.driver 9)
      | _ => none }

/-- A cookie that carries the session ID K. -/
def cookieK : Cookie := NewCookie "sid" "K" demoOptions

/-- The state after a first visit without cookie. -/
def visit1 : Outcome × Session × World :=
  handle twoKeyEnv emptyWorld [] "sid" aliceValues demoOptions

/-- The state after a second visit without cookie. -/
def visit2 : Outcome × Session × World :=
  handle twoKeyEnv visit1.2.2 [] "sid" aliceValues demoOptions

/-- The state after the first visitor comes back with the cookie of the
first visit and empties the session. -/
def visit3 : Outcome × Session × World :=
  handle twoKeyEnv visit2.2.2 visit1.2.2.resp "sid" [] demoOptions

/-- A new session, as `New` returns it for a request without cookie, with the
user entry set. -/
def aliceSession : Session :=
  { (New demoEnv emptyWorld [] "sid").1.1 with Values := aliceValues }

/-- The first `Save` of `aliceSession`. -/
def firstSave : Outcome × Session × World :=
  Save demoEnv emptyWorld aliceSession

/-- A second `Save` of the same session object. -/
def secondSave : Outcome × Session × World :=
  Save demoEnv firstSave.2.2 firstSave.2.1

/-- A session marked new; one that was never saved has the empty ID. -/
def markedNew (id name : String) (V : Values) (opts : Options) : Session :=
  { ID := id, name := name, Values := V, Options := opts, IsNew := true }

/-- A session resumed from the row with key K, with max-age 3600. -/
def resumedSession (V : Values) : Session :=
  { ID := "K", name := "sid", Values := V, Options := demoOptions, IsNew := false }

/-- A table that holds the row of key K, which expires at 5 ns. -/
def resumedWorld : World :=
  { emptyWorld with
    rows := [{ Key := "K", Data := "empty", CreatedOn := 1, UpdatedOn := 1, ExpiresOn := 5 }] }

/-- Collaborators whose clock stands still at 1000 s and whose codec encodes
every value map. -/
def steadyEnv : Env :=
  { demoEnv with
    clock := fun _ => demoStart
    encodeValues := fun _ _ _ => Except.ok "data" }

/-- A value map whose `expires_on` entry is a time long past: 5 ns. -/
def earlyExpiryValues : Values := [("expires_on", Value.time 5)]

/-- A value map whose `expires_on` entry is a time far ahead: 9000 s. -/
def lateExpiryValues : Values := [("expires_on", Value.time 9000000000000)]

/-! ## The two halves of save -/

theorem save_unfold (env : Env) (w : World) (session : Session) :
    save env w session =
      match env.encodeValues w.Codecs session.name session.Values with
      | Except.error e => (Outcome.ret (some e), w)
      | Except.ok encoded =>
        match saveExpiresOn env w session with
        | none => (Outcome.panicked, w)
        | some (expiresOn, w1) =>
          writeRecord env w1 session (saveRecord session encoded expiresOn) := by
  unfold save buildRecord
  cases env.encodeValues w.Codecs session.name session.Values with
  | error e => rfl
  | ok encoded =>
    cases saveExpiresOn env w session with
    | none => rfl
    | some p => rfl

/-! ## Arithmetic of durations -/

theorem wrap64_of_range (x : Int) (h1 : -(2 ^ 63) ≤ x) (h2 : x < 2 ^ 63) : wrap64 x = x := by
  unfold wrap64
  norm_num at h1 h2 ⊢
  omega

theorem secondsDuration_of_fits (m : Int) (h0 : 0 ≤ m) (hfit : m * 1000000000 < 2 ^ 63) :
    secondsDuration m = m * 1000000000 := by
  have hm : wrap64 m = m := by
    apply wrap64_of_range
    · norm_num
      omega
    · norm_num at hfit ⊢
      omega
  unfold secondsDuration Second
  rw [hm]
  have h : (1000000000 : Int) * m = m * 1000000000 := by ring
  rw [h]
  apply wrap64_of_range
  · norm_num
    omega
  · exact hfit

theorem timeSub_neg_iff (t u : Int) : timeSub t u < 0 ↔ t < u := by
  unfold timeSub
  norm_num
  split_ifs <;> omega

/-! ## MaxAge -/

theorem MaxAge_codecs_get (w : World) (m : Int) (i : Nat) :
    (MaxAge w m).Codecs[i]? = (w.Codecs[i]?).map fun codec =>
      match codec with
      | Codec.secure sc => Codec.secure (sc.MaxAge m)
      | Codec.other tag => Codec.other tag := by
  simp [MaxAge]

/-- C9: calling `MaxAge m` twice gives the state that one call gives; in that
state the options hold max-age `m`, every codec that is a secure cookie holds
max-age `m` with its other fields kept, every other codec is at its place
unchanged, and the other option fields and the rest of the state are as
before the first call. -/
theorem MaxAge_idempotent (w : World) (m : Int) :
    MaxAge (MaxAge w m) m = MaxAge w m ∧
    (MaxAge w m).Options.MaxAge = m ∧
    (∀ sc, Codec.secure sc ∈ (MaxAge w m).Codecs → sc.maxAge = m) ∧
    (MaxAge w m).Codecs.length = w.Codecs.length ∧
    (∀ (i : Nat) sc, w.Codecs[i]? = some (Codec.secure sc) →
      (MaxAge w m).Codecs[i]? = some (Codec.secure { sc with maxAge := m })) ∧
    (∀ (i : Nat) tag, w.Codecs[i]? = some (Codec.other tag) →
      (MaxAge w m).Codecs[i]? = some (Codec.other tag)) ∧
    (MaxAge w m).Options.Path = w.Options.Path ∧
    (MaxAge w m).Options.Domain = w.Options.Domain ∧
    (MaxAge w m).Options.Secure = w.Options.Secure ∧
    (MaxAge w m).Options.HttpOnly = w.Options.HttpOnly ∧
    (MaxAge w m).rows = w.rows ∧ (MaxAge w m).log = w.log ∧
    (MaxAge w m).resp = w.resp ∧ (MaxAge w m).tick = w.tick ∧
    (MaxAge w m).rng = w.rng := by
  refine ⟨?_, rfl, ?_, ?_, ?_, ?_, rfl, rfl, rfl, rfl, rfl, rfl, rfl, rfl, rfl⟩
  · simp only [MaxAge, List.map_map]
    congr 1
    apply List.map_congr_left
    intro codec _
    cases codec <;> simp [SecureCookie.MaxAge]
  · intro sc hsc
    simp only [MaxAge, List.mem_map] at hsc
    obtain ⟨codec, _, hc⟩ := hsc
    cases codec with
    | secure sc0 =>
      simp only [Codec.secure.injEq] at hc
      rw [← hc]
      rfl
    | other tag => simp at hc
  · simp [MaxAge]
  · intro i sc h
    rw [MaxAge_codecs_get, h]
    rfl
  · intro i tag h
    rw [MaxAge_codecs_get, h]
    rfl

/-! ## The expiry computed by save -/

theorem index_of_absent (m : Values) (k : String) (h : m.lookup k = none) :
    m.index k = Value.null := by
  simp [Values.index, h]

theorem saveExpiresOn_null (env : Env) (w : World) (session : Session)
    (h : session.Values.index "expires_on" = Value.null) :
    saveExpiresOn env w session =
      some (env.clock w.tick + secondsDuration session.Options.MaxAge,
        { w with tick := w.tick + 1 }) := by
  simp [saveExpiresOn, h, timeNow, timeAdd]

theorem saveExpiresOn_time (env : Env) (w : World) (session : Session) (e : Int)
    (h : session.Values.index "expires_on" = Value.time e) :
    saveExpiresOn env w session =
      if e < env.clock w.tick + secondsDuration session.Options.MaxAge then
        some (env.clock (w.tick + 1) + secondsDuration session.Options.MaxAge,
          { w with tick := w.tick + 1 + 1 })
      else some (e, { w with tick := w.tick + 1 }) := by
  simp only [saveExpiresOn, h, timeNow, timeAdd, timeSub_neg_iff]

theorem buildRecord_of_expiry (env : Env) (w w1 : World) (session : Session)
    (encoded : String) (x : Int)
    (henc : env.encodeValues w.Codecs session.name session.Values = Except.ok encoded)
    (hx : saveExpiresOn env w session = some (x, w1)) :
    buildRecord env w session = Built.record (saveRecord session encoded x) w1 ∧
    save env w session = writeRecord env w1 session (saveRecord session encoded x) := by
  constructor
  · simp only [buildRecord, henc, hx]
  · simp only [save_unfold, henc, hx]

theorem saveExpiresOn_clamped (env : Env) (w : World) (session : Session)
    (now m e : Int) (hclock : ∀ n, env.clock n = now)
    (hd : secondsDuration session.Options.MaxAge = m * 1000000000)
    (he : session.Values.index "expires_on" = Value.time e) :
    ∃ w1, saveExpiresOn env w session = some (max e (now + m * 1000000000), w1) := by
  rw [saveExpiresOn_time env w session e he, hclock, hclock, hd]
  by_cases hlt : e < now + m * 1000000000
  · rw [if_pos hlt, max_eq_right (le_of_lt hlt)]
    exact ⟨_, rfl⟩
  · rw [if_neg hlt, max_eq_left (not_lt.mp hlt)]
    exact ⟨_, rfl⟩

/-- C3: with every reading of the clock equal to `now` and a max-age
`m ≥ 0` whose nanoseconds fit 64 bits, when the values encode, the record `s`
that `save` builds and hands to Create (new session) or Update (resumed
session) has `s.ExpiresOn = now + m` when the `expires_on` entry is absent
(or nil), and `s.ExpiresOn = max e (now + m)` when the entry is a time `e`:
`now + m` if `e < now + m`, and `e` itself if `e ≥ now + m`; it is never
earlier than `now + m`. Every record that `buildRecord` yields has that
expiry. Times are in nanoseconds. -/
theorem save_expiry_clamp (env : Env) (w : World) (session : Session)
    (now m : Int) (encoded : String)
    (hclock : ∀ n, env.clock n = now)
    (hm : session.Options.MaxAge = m) (h0 : 0 ≤ m) (hfit : m * 1000000000 < 2 ^ 63)
    (henc : env.encodeValues w.Codecs session.name session.Values = Except.ok encoded) :
    (session.Values.index "expires_on" = Value.null →
      (∃ w1, buildRecord env w session =
          Built.record (saveRecord session encoded (now + m * 1000000000)) w1 ∧
        save env w session =
          writeRecord env w1 session (saveRecord session encoded (now + m * 1000000000))) ∧
      (saveRecord session encoded (now + m * 1000000000)).ExpiresOn =
        now + m * 1000000000 ∧
      ∀ s w1, buildRecord env w session = Built.record s w1 →
        s.ExpiresOn = now + m * 1000000000) ∧
    (∀ e, session.Values.index "expires_on" = Value.time e →
      (∃ w1, buildRecord env w session =
          Built.record (saveRecord session encoded (max e (now + m * 1000000000))) w1 ∧
        save env w session =
          writeRecord env w1 session
            (saveRecord session encoded (max e (now + m * 1000000000)))) ∧
      (saveRecord session encoded (max e (now + m * 1000000000))).ExpiresOn =
        max e (now + m * 1000000000) ∧
      (∀ s w1, buildRecord env w session = Built.record s w1 →
        s.ExpiresOn = max e (now + m * 1000000000)) ∧
      (e < now + m * 1000000000 → max e (now + m * 1000000000) = now + m * 1000000000) ∧
      (now + m * 1000000000 ≤ e → max e (now + m * 1000000000) = e) ∧
      now + m * 1000000000 ≤ max e (now + m * 1000000000)) := by
  have hd : secondsDuration session.Options.MaxAge = m * 1000000000 := by
    rw [hm]
    exact secondsDuration_of_fits m h0 hfit
  constructor
  · intro hnull
    have hx : saveExpiresOn env w session =
        some (now + m * 1000000000, { w with tick := w.tick + 1 }) := by
      rw [saveExpiresOn_null env w session hnull, hclock, hd]
    have hb := buildRecord_of_expiry env w _ session encoded _ henc hx
    refine ⟨⟨_, hb⟩, rfl, ?_⟩
    intro s w1 hs
    rw [hb.1] at hs
    injection hs with hs1 _
    rw [← hs1]
    rfl
  · intro e he
    obtain ⟨w1, hx⟩ := saveExpiresOn_clamped env w session now m e hclock hd he
    have hb := buildRecord_of_expiry env w w1 session encoded _ henc hx
    refine ⟨⟨w1, hb⟩, rfl, ?_, ?_, ?_, ?_⟩
    · intro s w2 hs
      rw [hb.1] at hs
      injection hs with hs1 _
      rw [← hs1]
      rfl
    · intro hlt
      exact max_eq_right (le_of_lt hlt)
    · intro hle
      exact max_eq_left hle
    · exact le_max_right _ _

/-- Witness of C3: a resumed session (so the record goes to Update) with
max-age 3600 and a clock that stands at 1000 s; once with an `expires_on` of
5 ns, which is raised to 4600 s, once with an `expires_on` of 9000 s, which
is kept. -/
theorem save_expiry_clamp_witness :
    (∀ n, steadyEnv.clock n = demoStart) ∧ (0 : Int) ≤ 3600 ∧
    (3600 : Int) * 1000000000 < 2 ^ 63 ∧
    (∀ s w1, buildRecord steadyEnv resumedWorld (resumedSession earlyExpiryValues) =
        Built.record s w1 → s.ExpiresOn = max 5 (demoStart + 3600 * 1000000000)) ∧
    max 5 (demoStart + 3600 * 1000000000) = demoStart + 3600 * 1000000000 ∧
    (∀ s w1, buildRecord steadyEnv resumedWorld (resumedSession lateExpiryValues) =
        Built.record s w1 → s.ExpiresOn = max 9000000000000 (demoStart + 3600 * 1000000000)) ∧
    max 9000000000000 (demoStart + 3600 * 1000000000) = 9000000000000 :=
  ⟨fun _ => rfl, by decide, by norm_num,
   ((save_expiry_clamp steadyEnv resumedWorld (resumedSession earlyExpiryValues)
      demoStart 3600 "data" (fun _ => rfl) rfl (by decide) (by norm_num) rfl).2 5 rfl).2.2.1,
   ((save_expiry_clamp steadyEnv resumedWorld (resumedSession earlyExpiryValues)
      demoStart 3600 "data" (fun _ => rfl) rfl (by decide) (by norm_num) rfl).2 5 rfl).2.2.2.1
      (by decide),
   ((save_expiry_clamp steadyEnv resumedWorld (resumedSession lateExpiryValues)
      demoStart 3600 "data" (fun _ => rfl) rfl (by decide) (by norm_num)
      rfl).2 9000000000000 rfl).2.2.1,
   ((save_expiry_clamp steadyEnv resumedWorld (resumedSession lateExpiryValues)
      demoStart 3600 "data" (fun _ => rfl) rfl (by decide) (by norm_num)
      rfl).2 9000000000000 rfl).2.2.2.2.1 (by decide)⟩

/-- The two instances of the clamp, evaluated: the record built for the
resumed session carries 4600 s for the early entry and 9000 s for the late
one. -/
theorem buildRecord_clamp_examples :
    buildRecord steadyEnv resumedWorld (resumedSession earlyExpiryValues) =
      Built.record
        { Key := "K", Data := "data", CreatedOn := 0, UpdatedOn := 0,
          ExpiresOn := 4600000000000 }
        { resumedWorld with tick := 2 } ∧
    buildRecord steadyEnv resumedWorld (resumedSession lateExpiryValues) =
      Built.record
        { Key := "K", Data := "data", CreatedOn := 0, UpdatedOn := 0,
          ExpiresOn := 9000000000000 }
        { resumedWorld with tick := 1 } := by
  decide

/-! ## What the record operations touch -/

theorem Create_fail (env : Env) (s : qlSession) (w : World) (e : Err)
    (h : txFault env w.log.length (DbOp.create s.Key s.Data s.ExpiresOn) = some e) :
    s.Create env w =
      (some e, { w with log := w.log ++ [DbOp.create s.Key s.Data s.ExpiresOn] }) := by
  simp [qlSession.Create, h]

theorem Create_ok (env : Env) (s : qlSession) (w : World)
    (h : txFault env w.log.length (DbOp.create s.Key s.Data s.ExpiresOn) = none) :
    s.Create env w =
      (none, { w with
        log := w.log ++ [DbOp.create s.Key s.Data s.ExpiresOn],
        tick := w.tick + 1 + 1,
        rows := w.rows ++
          [{ Key := s.Key, Data := s.Data, CreatedOn := env.clock w.tick,
             UpdatedOn := env.clock (w.tick + 1), ExpiresOn := s.ExpiresOn }] }) := by
  simp [qlSession.Create, h, timeNow]

theorem Update_fail (env : Env) (s : qlSession) (w : World) (e : Err)
    (h : txFault env w.log.length (DbOp.update s.Key s.Data) = some e) :
    s.Update env w = (some e, { w with log := w.log ++ [DbOp.update s.Key s.Data] }) := by
  simp [qlSession.Update, h]

theorem Update_ok (env : Env) (s : qlSession) (w : World)
    (h : txFault env w.log.length (DbOp.update s.Key s.Data) = none) :
    s.Update env w =
      (none, { w with
        log := w.log ++ [DbOp.update s.Key s.Data],
        tick := w.tick + 1,
        rows := w.rows.map fun row =>
          if row.Key == s.Key then
            { row with Data := s.Data, UpdatedOn := env.clock w.tick }
          else row }) := by
  simp [qlSession.Update, h, timeNow]

theorem Delete_fail (env : Env) (s : qlSession) (w : World) (e : Err)
    (h : txFault env w.log.length (DbOp.delete s.Key) = some e) :
    qlSession.Delete env s w = (some e, { w with log := w.log ++ [DbOp.delete s.Key] }) := by
  simp [qlSession.Delete, h]

theorem Delete_ok (env : Env) (s : qlSession) (w : World)
    (h : txFault env w.log.length (DbOp.delete s.Key) = none) :
    qlSession.Delete env s w =
      (none, { w with
        log := w.log ++ [DbOp.delete s.Key],
        rows := w.rows.filter fun row => !(row.Key == s.Key) }) := by
  simp [qlSession.Delete, h]

theorem Create_resp (env : Env) (s : qlSession) (w : World) :
    (s.Create env w).2.resp = w.resp := by
  cases h : txFault env w.log.length (DbOp.create s.Key s.Data s.ExpiresOn) with
  | none => rw [Create_ok env s w h]
  | some e => rw [Create_fail env s w e h]

theorem Update_resp (env : Env) (s : qlSession) (w : World) :
    (s.Update env w).2.resp = w.resp := by
  cases h : txFault env w.log.length (DbOp.update s.Key s.Data) with
  | none => rw [Update_ok env s w h]
  | some e => rw [Update_fail env s w e h]

theorem writeRecord_resp (env : Env) (w : World) (session : Session) (s : qlSession) :
    (writeRecord env w session s).2.resp = w.resp := by
  unfold writeRecord
  split
  · exact Create_resp env s w
  · exact Update_resp env s w

theorem saveExpiresOn_keeps (env : Env) (w w1 : World) (session : Session) (x : Int)
    (h : saveExpiresOn env w session = some (x, w1)) :
    w1.resp = w.resp ∧ w1.log = w.log ∧ w1.rows = w.rows ∧ w1.Codecs = w.Codecs ∧
    w1.Options = w.Options ∧ w1.rng = w.rng := by
  unfold saveExpiresOn at h
  split at h
  · simp only [timeNow, Option.some.injEq, Prod.mk.injEq] at h
    rw [← h.2]
    simp
  · simp only [timeNow] at h
    split at h
    · simp only [Option.some.injEq, Prod.mk.injEq] at h
      rw [← h.2]
      simp
    · simp only [Option.some.injEq, Prod.mk.injEq] at h
      rw [← h.2]
      simp
  · simp at h

theorem save_resp (env : Env) (w : World) (session : Session) :
    (save env w session).2.resp = w.resp := by
  rw [save_unfold]
  split
  · rfl
  · split
    · rfl
    · rename_i x w1 h
      rw [writeRecord_resp]
      exact (saveExpiresOn_keeps env w w1 session x h).1

theorem assignID_keeps (env : Env) (w : World) (session : Session) :
    (assignID env w session).2.resp = w.resp ∧ (assignID env w session).2.log = w.log ∧
    (assignID env w session).2.rows = w.rows ∧
    (assignID env w session).2.Codecs = w.Codecs ∧
    (assignID env w session).2.Options = w.Options ∧
    (assignID env w session).1.name = session.name ∧
    (assignID env w session).1.Values = session.Values ∧
    (assignID env w session).1.Options = session.Options ∧
    (assignID env w session).1.IsNew = session.IsNew := by
  unfold assignID generateID
  split <;> simp

/-! ## Deletion -/

theorem expiredCookie_expired (w : World) (session : Session) :
    (expiredCookie w session).Value = "" ∧ (expiredCookie w session).MaxAge < 0 := by
  refine ⟨rfl, ?_⟩
  show (-1 : Int) < 0
  decide

theorem destroy_fail (env : Env) (w : World) (session : Session) (e : Err)
    (h : txFault env w.log.length (DbOp.delete session.ID) = some e) :
    destroy env w session =
      (some e, { session with Values := [] },
        { w with resp := w.resp ++ [expiredCookie w session],
                 log := w.log ++ [DbOp.delete session.ID] }) := by
  simp [destroy, qlSession.Delete, keyRecord, SetCookie, h, expiredCookie]

theorem destroy_ok (env : Env) (w : World) (session : Session)
    (h : txFault env w.log.length (DbOp.delete session.ID) = none) :
    destroy env w session =
      (none, { session with Values := [] },
        { w with resp := w.resp ++ [expiredCookie w session],
                 log := w.log ++ [DbOp.delete session.ID],
                 rows := w.rows.filter fun row => !(row.Key == session.ID) }) := by
  simp [destroy, qlSession.Delete, keyRecord, SetCookie, h, expiredCookie]

theorem Save_negative_fail (env : Env) (w : World) (session : Session) (e : Err)
    (hneg : session.Options.MaxAge < 0)
    (h : txFault env w.log.length (DbOp.delete session.ID) = some e) :
    Save env w session =
      (Outcome.ret (some e), { session with Values := [] },
        { w with resp := w.resp ++ [expiredCookie w session],
                 log := w.log ++ [DbOp.delete session.ID] }) := by
  simp [Save, hneg, Delete, destroy_fail env w session e h]

theorem Save_negative_ok (env : Env) (w : World) (session : Session)
    (hneg : session.Options.MaxAge < 0)
    (h : txFault env w.log.length (DbOp.delete session.ID) = none) :
    Save env w session =
      (Outcome.ret none, { session with Values := [] },
        { w with resp := w.resp ++
                   [expiredCookie w session, NewCookie session.name "" session.Options],
                 log := w.log ++ [DbOp.delete session.ID],
                 rows := w.rows.filter fun row => !(row.Key == session.ID) }) := by
  simp [Save, hneg, Delete, destroy_ok env w session h, SetCookie]

/-- C2: for a session whose max-age is negative, `Save` issues exactly one
statement, the delete for the session's key (so neither Create nor Update);
the cookies it writes start with the one of `Delete`, which has max-age -1,
and all of them have an empty value and a negative max-age; when the delete
succeeds, `Save` returns nil, the session's values are empty afterwards and
no row with the key is left. -/
theorem Save_negative_maxAge_deletes (env : Env) (w : World) (session : Session)
    (hneg : session.Options.MaxAge < 0) :
    (Save env w session).2.2.log = w.log ++ [DbOp.delete session.ID] ∧
    (∃ more, (Save env w session).2.2.resp = w.resp ++ expiredCookie w session :: more ∧
      (expiredCookie w session).MaxAge = -1 ∧
      ∀ c ∈ expiredCookie w session :: more, c.Value = "" ∧ c.MaxAge < 0) ∧
    (txFault env w.log.length (DbOp.delete session.ID) = none →
      (Save env w session).1 = Outcome.ret none ∧
      (Save env w session).2.1.Values = [] ∧
      (Save env w session).2.2.rows = (w.rows.filter fun row => !(row.Key == session.ID)) ∧
      ∀ row ∈ (Save env w session).2.2.rows, row.Key ≠ session.ID) := by
  cases h : txFault env w.log.length (DbOp.delete session.ID) with
  | some e =>
    rw [Save_negative_fail env w session e hneg h]
    refine ⟨rfl, ⟨[], rfl, rfl, ?_⟩, ?_⟩
    · intro c hc
      simp only [List.mem_singleton] at hc
      subst hc
      exact expiredCookie_expired w session
    · intro hcontra
      cases hcontra
  | none =>
    rw [Save_negative_ok env w session hneg h]
    refine ⟨rfl, ⟨[NewCookie session.name "" session.Options], ?_, rfl, ?_⟩, ?_⟩
    · simp
    · intro c hc
      simp only [List.mem_cons, List.mem_singleton, List.not_mem_nil, or_false] at hc
      rcases hc with hc | hc
      · subst hc
        exact expiredCookie_expired w session
      · subst hc
        exact ⟨rfl, hneg⟩
    · intro _
      refine ⟨rfl, rfl, rfl, ?_⟩
      intro row hrow
      simp only [List.mem_filter, Bool.not_eq_true', beq_eq_false_iff_ne] at hrow
      exact hrow.2

/-- Witness of C2: a session with max-age -1 over a table that holds its
row. -/
theorem Save_negative_maxAge_deletes_witness :
    ((-1 : Int) < 0) ∧
    (Save demoEnv
        { emptyWorld with rows := [{ Key := "K", Data := "alice", CreatedOn := 1,
                                     UpdatedOn := 1, ExpiresOn := 5 }] }
        { ID := "K", name := "sid", Values := aliceValues,
          Options := { demoOptions with MaxAge := -1 }, IsNew := false }).2.2.log =
      [DbOp.delete "K"] :=
  ⟨by decide,
   (Save_negative_maxAge_deletes demoEnv
      { emptyWorld with rows := [{ Key := "K", Data := "alice", CreatedOn := 1,
                                   UpdatedOn := 1, ExpiresOn := 5 }] }
      { ID := "K", name := "sid", Values := aliceValues,
        Options := { demoOptions with MaxAge := -1 }, IsNew := false }
      (by decide)).1⟩

/-- C6, as stated, fails: the delete transaction cannot begin, `Delete`
returns that error, and yet the response holds a cookie that was not there
before and the session has lost its values. -/
theorem Delete_failure_is_not_atomic :
    txFault deleteFailEnv emptyWorld.log.length (DbOp.delete "K") = some (Err.driver 7) ∧
    (Delete deleteFailEnv emptyWorld
      { ID := "K", name := "sid", Values := aliceValues, Options := demoOptions,
        IsNew := false }).1 = some (Err.driver 7) ∧
    (Delete deleteFailEnv emptyWorld
      { ID := "K", name := "sid", Values := aliceValues, Options := demoOptions,
        IsNew := false }).2.2.resp ≠ emptyWorld.resp ∧
    (Delete deleteFailEnv emptyWorld
      { ID := "K", name := "sid", Values := aliceValues, Options := demoOptions,
        IsNew := false }).2.1.Values ≠ aliceValues := by
  decide

/-- C6, amended: when deleting the record fails (at begin, exec or commit),
`Delete`, and `Save` with a negative max-age, return that error unchanged and
leave the table as it was; by then they have written the expired cookie
(empty value, max-age -1) to the response, and only that one, and have
cleared the session's values. -/
theorem Delete_failure_effects (env : Env) (w : World) (session : Session) (e : Err)
    (hfail : txFault env w.log.length (DbOp.delete session.ID) = some e) :
    Delete env w session =
      (some e, { session with Values := [] },
        { w with resp := w.resp ++ [expiredCookie w session],
                 log := w.log ++ [DbOp.delete session.ID] }) ∧
    (Delete env w session).2.2.rows = w.rows ∧
    (expiredCookie w session).Value = "" ∧ (expiredCookie w session).MaxAge = -1 ∧
    (session.Options.MaxAge < 0 →
      Save env w session = (Outcome.ret (some e), (Delete env w session).2)) := by
  have hd : Delete env w session = destroy env w session := rfl
  rw [hd, destroy_fail env w session e hfail]
  refine ⟨rfl, rfl, rfl, rfl, ?_⟩
  intro hneg
  rw [Save_negative_fail env w session e hneg hfail]

/-- Witness of the amended C6: the delete transaction cannot begin. -/
theorem Delete_failure_effects_witness :
    txFault deleteFailEnv emptyWorld.log.length (DbOp.delete "K") = some (Err.driver 7) ∧
    Delete deleteFailEnv emptyWorld (resumedSession aliceValues) =
      (some (Err.driver 7), { resumedSession aliceValues with Values := [] },
        { emptyWorld with
          resp := emptyWorld.resp ++ [expiredCookie emptyWorld (resumedSession aliceValues)],
          log := emptyWorld.log ++ [DbOp.delete (resumedSession aliceValues).ID] }) :=
  ⟨by decide,
   (Delete_failure_effects deleteFailEnv emptyWorld (resumedSession aliceValues)
      (Err.driver 7) (by decide)).1⟩

/-! ## Save with a max-age that is not negative -/

theorem Save_nonneg (env : Env) (w : World) (session : Session)
    (h0 : 0 ≤ session.Options.MaxAge) :
    Save env w session =
      match save env (assignID env w session).2 (assignID env w session).1 with
      | (Outcome.panicked, w1) => (Outcome.panicked, (assignID env w session).1, w1)
      | (Outcome.ret (some e), w1) => (Outcome.ret (some e), (assignID env w session).1, w1)
      | (Outcome.ret none, w1) =>
        match env.encodeID w1.Codecs (assignID env w session).1.name
            (assignID env w session).1.ID with
        | Except.error e => (Outcome.ret (some e), (assignID env w session).1, w1)
        | Except.ok encoded =>
          (Outcome.ret none, (assignID env w session).1,
            SetCookie w1 (NewCookie (assignID env w session).1.name encoded
              (assignID env w session).1.Options)) := by
  have hneg : ¬ session.Options.MaxAge < 0 := not_lt.mpr h0
  simp only [Save, hneg, if_false]

theorem save_encode_error (env : Env) (w : World) (session : Session) (e : Err)
    (h : env.encodeValues w.Codecs session.name session.Values = Except.error e) :
    save env w session = (Outcome.ret (some e), w) := by
  simp [save_unfold, h]

theorem Save_of_save_error (env : Env) (w w1 : World) (session : Session) (e : Err)
    (h0 : 0 ≤ session.Options.MaxAge)
    (h : save env (assignID env w session).2 (assignID env w session).1 =
      (Outcome.ret (some e), w1)) :
    Save env w session = (Outcome.ret (some e), (assignID env w session).1, w1) := by
  rw [Save_nonneg env w session h0, h]

theorem Save_of_encodeID_error (env : Env) (w w1 : World) (session : Session) (e : Err)
    (h0 : 0 ≤ session.Options.MaxAge)
    (h : save env (assignID env w session).2 (assignID env w session).1 =
      (Outcome.ret none, w1))
    (hid : env.encodeID w1.Codecs (assignID env w session).1.name
      (assignID env w session).1.ID = Except.error e) :
    Save env w session = (Outcome.ret (some e), (assignID env w session).1, w1) := by
  rw [Save_nonneg env w session h0, h]
  simp only [hid]

theorem Save_error_resp (env : Env) (w : World) (session : Session) (e : Err)
    (h0 : 0 ≤ session.Options.MaxAge)
    (h : (Save env w session).1 = Outcome.ret (some e)) :
    (Save env w session).2.2.resp = w.resp := by
  have hr := save_resp env (assignID env w session).2 (assignID env w session).1
  rw [(assignID_keeps env w session).1] at hr
  rw [Save_nonneg env w session h0] at h ⊢
  generalize save env (assignID env w session).2 (assignID env w session).1 = res at h hr ⊢
  obtain ⟨o, w1⟩ := res
  cases o with
  | panicked => exact hr
  | ret err =>
    cases err with
    | some e1 => exact hr
    | none =>
      simp only at h ⊢
      split at h
      · rename_i heq
        simp only [heq]
        exact hr
      · simp at h

/-- C5: for a session whose max-age is not negative: (1) if encoding the
values fails, `Save` returns that error, writes no cookie and issues no
statement to the database; (2) if Create/Update of the record fails, `Save`
returns that error and writes no cookie; (3) if the record is written and
encoding the session ID fails, `Save` returns that error and writes no
cookie; (4) whenever `Save` returns an error the response is as before. -/
theorem Save_failure_writes_no_cookie (env : Env) (w : World) (session : Session)
    (h0 : 0 ≤ session.Options.MaxAge) :
    (∀ e, env.encodeValues w.Codecs session.name session.Values = Except.error e →
      (Save env w session).1 = Outcome.ret (some e) ∧
      (Save env w session).2.2.resp = w.resp ∧
      (Save env w session).2.2.log = w.log ∧
      (Save env w session).2.2.rows = w.rows) ∧
    (∀ e encoded x w1,
      env.encodeValues w.Codecs session.name session.Values = Except.ok encoded →
      saveExpiresOn env (assignID env w session).2 (assignID env w session).1 = some (x, w1) →
      (writeRecord env w1 (assignID env w session).1
        (saveRecord (assignID env w session).1 encoded x)).1 = Outcome.ret (some e) →
      (Save env w session).1 = Outcome.ret (some e) ∧
      (Save env w session).2.2.resp = w.resp) ∧
    (∀ e w1,
      save env (assignID env w session).2 (assignID env w session).1 = (Outcome.ret none, w1) →
      env.encodeID w1.Codecs (assignID env w session).1.name
        (assignID env w session).1.ID = Except.error e →
      (Save env w session).1 = Outcome.ret (some e) ∧
      (Save env w session).2.2.resp = w.resp) ∧
    (∀ e, (Save env w session).1 = Outcome.ret (some e) →
      (Save env w session).2.2.resp = w.resp) := by
  obtain ⟨_, hlog, hrows, hcodecs, _, hname, hvalues, _, _⟩ := assignID_keeps env w session
  refine ⟨?_, ?_, ?_, ?_⟩
  · intro e henc
    have hs : save env (assignID env w session).2 (assignID env w session).1 =
        (Outcome.ret (some e), (assignID env w session).2) := by
      apply save_encode_error
      rw [hcodecs, hname, hvalues]
      exact henc
    have hS := Save_of_save_error env w _ session e h0 hs
    refine ⟨by rw [hS], Save_error_resp env w session e h0 (by rw [hS]), ?_, ?_⟩
    · rw [hS]
      exact hlog
    · rw [hS]
      exact hrows
  · intro e encoded x w1 henc hexp hwr
    have hs : save env (assignID env w session).2 (assignID env w session).1 =
        (Outcome.ret (some e),
          (writeRecord env w1 (assignID env w session).1
            (saveRecord (assignID env w session).1 encoded x)).2) := by
      have henc2 : env.encodeValues (assignID env w session).2.Codecs
          (assignID env w session).1.name (assignID env w session).1.Values =
          Except.ok encoded := by
        rw [hcodecs, hname, hvalues]
        exact henc
      simp only [save_unfold, henc2, hexp]
      rw [← hwr]
    have hS := Save_of_save_error env w _ session e h0 hs
    exact ⟨by rw [hS], Save_error_resp env w session e h0 (by rw [hS])⟩
  · intro e w1 hs hid
    have hS := Save_of_encodeID_error env w w1 session e h0 hs hid
    exact ⟨by rw [hS], Save_error_resp env w session e h0 (by rw [hS])⟩
  · intro e he
    exact Save_error_resp env w session e h0 he

/-- Witness of C5: the value map is one the codec cannot encode. -/
theorem Save_failure_writes_no_cookie_witness :
    (0 : Int) ≤ 3600 ∧
    (Save demoEnv emptyWorld
      { ID := "", name := "sid", Values := [("n", Value.num 1)], Options := demoOptions,
        IsNew := true }).2.2.resp = emptyWorld.resp :=
  ⟨by decide,
   ((Save_failure_writes_no_cookie demoEnv emptyWorld
      { ID := "", name := "sid", Values := [("n", Value.num 1)], Options := demoOptions,
        IsNew := true } (by decide)).1 (Err.codec 1) rfl).2.1⟩

/-! ## New -/

theorem New_no_cookie (env : Env) (w : World) (r : Request) (name : String)
    (hc : r.Cookie name = none) :
    New env w r name = ((freshSession w name, none), MaxAge w w.Options.MaxAge) := by
  simp [New, hc, NewSession, freshSession]

theorem New_decode_error (env : Env) (w : World) (r : Request) (name : String)
    (c : Cookie) (e : Err) (hc : r.Cookie name = some c)
    (hd : env.decodeID w.Codecs name c.Value = Except.error e) :
    New env w r name = ((freshSession w name, some e), MaxAge w w.Options.MaxAge) := by
  simp [New, hc, hd, NewSession, freshSession]

theorem New_find_error (env : Env) (w : World) (r : Request) (name : String)
    (c : Cookie) (id : String) (e : Err) (hc : r.Cookie name = some c)
    (hd : env.decodeID w.Codecs name c.Value = Except.ok id)
    (hf : (qlSession.FindByKey env (keyRecord id) w).1 = some e) :
    (New env w r name).1 = ({ freshSession w name with ID := id }, some e) := by
  unfold qlSession.FindByKey keyRecord at hf
  simp only [New, hc, hd, NewSession, freshSession, load, qlSession.FindByKey, keyRecord]
  cases hfa : env.fault w.log.length (DbOp.find id) TxStage.exec with
  | some e1 =>
    simp only [hfa, Option.some.injEq] at hf
    simp [hf]
  | none =>
    simp only [hfa] at hf
    cases hrow : List.find? (fun row => row.Key == id) w.rows with
    | none =>
      simp only [hrow, Option.some.injEq] at hf
      simp [hf]
    | some row => simp [hrow] at hf

theorem New_payload_error (env : Env) (w : World) (r : Request) (name : String)
    (c : Cookie) (id : String) (row : qlSession) (e : Err) (hc : r.Cookie name = some c)
    (hd : env.decodeID w.Codecs name c.Value = Except.ok id)
    (hfa : env.fault w.log.length (DbOp.find id) TxStage.exec = none)
    (hrow : w.rows.find? (fun row => row.Key == id) = some row)
    (hv : env.decodeValues w.Codecs name row.Data = Except.error e) :
    (New env w r name).1 = ({ freshSession w name with ID := id }, some e) := by
  simp [New, hc, hd, NewSession, freshSession, load, qlSession.FindByKey, keyRecord, hfa,
    hrow, hv]

theorem New_loaded (env : Env) (w : World) (r : Request) (name : String)
    (c : Cookie) (id : String) (row : qlSession) (v : Values) (hc : r.Cookie name = some c)
    (hd : env.decodeID w.Codecs name c.Value = Except.ok id)
    (hfa : env.fault w.log.length (DbOp.find id) TxStage.exec = none)
    (hrow : w.rows.find? (fun row => row.Key == id) = some row)
    (hv : env.decodeValues w.Codecs name row.Data = Except.ok v) :
    (New env w r name).1 =
      ({ ID := id, name := name, Values := v, Options := w.Options, IsNew := false }, none) := by
  simp [New, hc, hd, NewSession, load, qlSession.FindByKey, keyRecord, hfa, hrow, hv]

/-- C4, as stated, fails: on a request without the cookie, `New` returns a
nil error, not a decode error (nothing is decoded). -/
theorem New_missing_cookie_returns_nil :
    Request.Cookie [] "sid" = none ∧
    (New demoEnv emptyWorld [] "sid").1.1.IsNew = true ∧
    (New demoEnv emptyWorld [] "sid").1.2 = none := by
  decide

/-- C4, amended: `New` returns a session with IsNew=false exactly when the
named cookie is present, its value decodes to an ID, the row of that ID is
found and its data decodes into values; the session then has that ID and
those values, and the error is nil. When the cookie is missing, `New` returns
IsNew=true, empty values and a nil error; when the cookie's value does not
decode, IsNew=true, empty values and the decode error; in both cases no
statement is issued. When the lookup or the decoding of the data fails, it
returns IsNew=true and that error. -/
theorem New_result (env : Env) (w : World) (r : Request) (name : String) :
    ((New env w r name).1.1.IsNew = false ↔
      ∃ c id row v, r.Cookie name = some c ∧
        env.decodeID w.Codecs name c.Value = Except.ok id ∧
        env.fault w.log.length (DbOp.find id) TxStage.exec = none ∧
        w.rows.find? (fun row => row.Key == id) = some row ∧
        env.decodeValues w.Codecs name row.Data = Except.ok v) ∧
    (∀ c id row v, r.Cookie name = some c →
      env.decodeID w.Codecs name c.Value = Except.ok id →
      env.fault w.log.length (DbOp.find id) TxStage.exec = none →
      w.rows.find? (fun row => row.Key == id) = some row →
      env.decodeValues w.Codecs name row.Data = Except.ok v →
      (New env w r name).1 =
        ({ ID := id, name := name, Values := v, Options := w.Options, IsNew := false },
          none)) ∧
    (r.Cookie name = none →
      (New env w r name).1 = (freshSession w name, none) ∧
      (New env w r name).2.log = w.log) ∧
    (∀ c e, r.Cookie name = some c →
      env.decodeID w.Codecs name c.Value = Except.error e →
      (New env w r name).1 = (freshSession w name, some e) ∧
      (New env w r name).2.log = w.log) ∧
    (∀ c id e, r.Cookie name = some c →
      env.decodeID w.Codecs name c.Value = Except.ok id →
      (qlSession.FindByKey env (keyRecord id) w).1 = some e →
      (New env w r name).1.1.IsNew = true ∧ (New env w r name).1.2 = some e) ∧
    (∀ c id row e, r.Cookie name = some c →
      env.decodeID w.Codecs name c.Value = Except.ok id →
      env.fault w.log.length (DbOp.find id) TxStage.exec = none →
      w.rows.find? (fun row => row.Key == id) = some row →
      env.decodeValues w.Codecs name row.Data = Except.error e →
      (New env w r name).1.1.IsNew = true ∧ (New env w r name).1.2 = some e) := by
  refine ⟨?_, ?_, ?_, ?_, ?_, ?_⟩
  · constructor
    · intro hnew
      cases hc : r.Cookie name with
      | none =>
        rw [New_no_cookie env w r name hc] at hnew
        simp [freshSession] at hnew
      | some c =>
        cases hd : env.decodeID w.Codecs name c.Value with
        | error e =>
          rw [New_decode_error env w r name c e hc hd] at hnew
          simp [freshSession] at hnew
        | ok id =>
          cases hfa : env.fault w.log.length (DbOp.find id) TxStage.exec with
          | some e =>
            have hf : (qlSession.FindByKey env (keyRecord id) w).1 = some e := by
              simp [qlSession.FindByKey, keyRecord, hfa]
            rw [New_find_error env w r name c id e hc hd hf] at hnew
            simp [freshSession] at hnew
          | none =>
            cases hrow : w.rows.find? (fun row => row.Key == id) with
            | none =>
              have hf : (qlSession.FindByKey env (keyRecord id) w).1 = some Err.errNoRows := by
                simp [qlSession.FindByKey, keyRecord, hfa, hrow]
              rw [New_find_error env w r name c id _ hc hd hf] at hnew
              simp [freshSession] at hnew
            | some row =>
              cases hv : env.decodeValues w.Codecs name row.Data with
              | error e =>
                rw [New_payload_error env w r name c id row e hc hd hfa hrow hv] at hnew
                simp [freshSession] at hnew
              | ok v => exact ⟨c, id, row, v, rfl, hd, hfa, hrow, hv⟩
    · rintro ⟨c, id, row, v, hc, hd, hfa, hrow, hv⟩
      rw [New_loaded env w r name c id row v hc hd hfa hrow hv]
  · intro c id row v hc hd hfa hrow hv
    exact New_loaded env w r name c id row v hc hd hfa hrow hv
  · intro hc
    rw [New_no_cookie env w r name hc]
    exact ⟨rfl, rfl⟩
  · intro c e hc hd
    rw [New_decode_error env w r name c e hc hd]
    exact ⟨rfl, rfl⟩
  · intro c id e hc hd hf
    rw [New_find_error env w r name c id e hc hd hf]
    exact ⟨rfl, rfl⟩
  · intro c id row e hc hd hfa hrow hv
    rw [New_payload_error env w r name c id row e hc hd hfa hrow hv]
    exact ⟨rfl, rfl⟩

/-! ## Keys of the table -/

theorem keys_Create (env : Env) (s : qlSession) (w : World) :
    keys (s.Create env w).2 = keys w ∨ keys (s.Create env w).2 = keys w ++ [s.Key] := by
  cases h : txFault env w.log.length (DbOp.create s.Key s.Data s.ExpiresOn) with
  | none =>
    right
    rw [Create_ok env s w h]
    simp [keys]
  | some e =>
    left
    rw [Create_fail env s w e h]
    rfl

theorem keys_Update (env : Env) (s : qlSession) (w : World) :
    keys (s.Update env w).2 = keys w := by
  cases h : txFault env w.log.length (DbOp.update s.Key s.Data) with
  | none =>
    rw [Update_ok env s w h]
    simp only [keys, List.map_map]
    apply List.map_congr_left
    intro row _
    simp only [Function.comp]
    split <;> rfl
  | some e =>
    rw [Update_fail env s w e h]
    rfl

theorem keys_save (env : Env) (w : World) (session : Session) :
    keys (save env w session).2 = keys w ∨
    (session.IsNew = true ∧ keys (save env w session).2 = keys w ++ [session.ID]) := by
  rw [save_unfold]
  split
  · left; rfl
  · split
    · left; rfl
    · rename_i x w1 h
      have hk : keys w1 = keys w := by
        unfold keys
        rw [(saveExpiresOn_keeps env w w1 session x h).2.2.1]
      unfold writeRecord
      by_cases hnew : session.IsNew = true
      · simp only [hnew, if_true]
        rcases keys_Create env (saveRecord session _ x) w1 with hc | hc
        · left
          rw [hc, hk]
        · right
          refine ⟨trivial, ?_⟩
          rw [hc, hk]
          rfl
      · left
        simp only [hnew]
        rw [← hk]
        exact keys_Update env _ w1

theorem keys_destroy (env : Env) (w : World) (session : Session) :
    (keys (destroy env w session).2.2).Sublist (keys w) := by
  cases h : txFault env w.log.length (DbOp.delete session.ID) with
  | none =>
    rw [destroy_ok env w session h]
    exact List.Sublist.map _ (List.filter_sublist _)
  | some e =>
    rw [destroy_fail env w session e h]
    exact List.Sublist.refl _

theorem keys_SetCookie (w : World) (c : Cookie) : keys (SetCookie w c) = keys w := rfl

theorem keys_Save (env : Env) (w : World) (session : Session) :
    (keys (Save env w session).2.2).Sublist (keys w) ∨
    (session.IsNew = true ∧ 0 ≤ session.Options.MaxAge ∧
      keys (Save env w session).2.2 = keys w ++ [(assignID env w session).1.ID]) := by
  by_cases hneg : session.Options.MaxAge < 0
  · left
    cases h : txFault env w.log.length (DbOp.delete session.ID) with
    | none =>
      rw [Save_negative_ok env w session hneg h]
      exact List.Sublist.map _ (List.filter_sublist _)
    | some e =>
      rw [Save_negative_fail env w session e hneg h]
      exact List.Sublist.refl _
  · have h0 : 0 ≤ session.Options.MaxAge := not_lt.mp hneg
    have hk := keys_save env (assignID env w session).2 (assignID env w session).1
    have hw : keys (assignID env w session).2 = keys w := by
      unfold keys
      rw [(assignID_keeps env w session).2.2.1]
    rw [hw, (assignID_keeps env w session).2.2.2.2.2.2.2.2] at hk
    have hS : keys (Save env w session).2.2 =
        keys (save env (assignID env w session).2 (assignID env w session).1).2 := by
      rw [Save_nonneg env w session h0]
      generalize save env (assignID env w session).2 (assignID env w session).1 = res
      obtain ⟨o, w1⟩ := res
      cases o with
      | panicked => rfl
      | ret err =>
        cases err with
        | some e1 => rfl
        | none =>
          simp only
          split <;> rfl
    rw [hS]
    rcases hk with hk | ⟨hnew, hk⟩
    · left
      rw [hk]
    · right
      exact ⟨hnew, h0, hk⟩

theorem keys_New (env : Env) (w : World) (r : Request) (name : String) :
    keys (New env w r name).2 = keys w := by
  unfold New
  cases r.Cookie name with
  | none => rfl
  | some c =>
    simp only
    cases env.decodeID w.Codecs name c.Value with
    | error e => rfl
    | ok id =>
      simp only [load, qlSession.FindByKey, keyRecord]
      cases env.fault w.log.length (DbOp.find id) TxStage.exec with
      | some e => rfl
      | none =>
        simp only [NewSession]
        cases List.find? (fun row => row.Key == id) w.rows with
        | none => rfl
        | some row =>
          simp only
          cases env.decodeValues w.Codecs name row.Data <;> rfl

theorem log_Create (env : Env) (s : qlSession) (w : World) :
    (s.Create env w).2.log = w.log ++ [DbOp.create s.Key s.Data s.ExpiresOn] := by
  cases h : txFault env w.log.length (DbOp.create s.Key s.Data s.ExpiresOn) with
  | none => rw [Create_ok env s w h]
  | some e => rw [Create_fail env s w e h]

theorem log_Update (env : Env) (s : qlSession) (w : World) :
    (s.Update env w).2.log = w.log ++ [DbOp.update s.Key s.Data] := by
  cases h : txFault env w.log.length (DbOp.update s.Key s.Data) with
  | none => rw [Update_ok env s w h]
  | some e => rw [Update_fail env s w e h]

theorem log_save (env : Env) (w : World) (session : Session) :
    (save env w session).2.log = w.log ∨
    (session.IsNew = true ∧
      ∃ d x, (save env w session).2.log = w.log ++ [DbOp.create session.ID d x]) ∨
    (∃ d, (save env w session).2.log = w.log ++ [DbOp.update session.ID d]) := by
  rw [save_unfold]
  split
  · left; rfl
  · split
    · left; rfl
    · rename_i encoded _ _ x w1 h
      have hl : w1.log = w.log := (saveExpiresOn_keeps env w w1 session x h).2.1
      right
      unfold writeRecord
      by_cases hnew : session.IsNew = true
      · left
        refine ⟨hnew, encoded, x, ?_⟩
        simp only [hnew, if_true]
        rw [log_Create, hl]
        rfl
      · right
        refine ⟨encoded, ?_⟩
        simp only [hnew]
        rw [← hl]
        exact log_Update env _ w1

theorem log_Save_nonneg (env : Env) (w : World) (session : Session)
    (h0 : 0 ≤ session.Options.MaxAge) :
    (Save env w session).2.2.log =
      (save env (assignID env w session).2 (assignID env w session).1).2.log := by
  rw [Save_nonneg env w session h0]
  generalize save env (assignID env w session).2 (assignID env w session).1 = res
  obtain ⟨o, w1⟩ := res
  cases o with
  | panicked => rfl
  | ret err =>
    cases err with
    | some e1 => rfl
    | none =>
      simp only
      split <;> rfl

theorem Save_create_only_if_new (env : Env) (w : World) (session : Session)
    (k d : String) (x : Int)
    (h : (Save env w session).2.2.log = w.log ++ [DbOp.create k d x]) :
    session.IsNew = true ∧ 0 ≤ session.Options.MaxAge ∧
      k = (assignID env w session).1.ID := by
  by_cases hneg : session.Options.MaxAge < 0
  · exfalso
    have hl : (Save env w session).2.2.log = w.log ++ [DbOp.delete session.ID] := by
      cases hf : txFault env w.log.length (DbOp.delete session.ID) with
      | none => rw [Save_negative_ok env w session hneg hf]
      | some e => rw [Save_negative_fail env w session e hneg hf]
    rw [hl] at h
    have := List.append_cancel_left h
    simp at this
  · have h0 : 0 ≤ session.Options.MaxAge := not_lt.mp hneg
    rw [log_Save_nonneg env w session h0] at h
    have hk := log_save env (assignID env w session).2 (assignID env w session).1
    rw [(assignID_keeps env w session).2.1,
      (assignID_keeps env w session).2.2.2.2.2.2.2.2] at hk
    rcases hk with hk | ⟨hnew, d1, x1, hk⟩ | ⟨d1, hk⟩
    · exfalso
      rw [hk] at h
      have := congrArg List.length h
      simp at this
    · rw [hk] at h
      have := List.append_cancel_left h
      simp only [List.cons.injEq, DbOp.create.injEq, and_true] at this
      exact ⟨hnew, h0, this.1.symm⟩
    · exfalso
      rw [hk] at h
      have := List.append_cancel_left h
      simp at this

/-- C10, as stated, fails: `New` on a request without cookie, then `Save`,
then `Save` again on the same session object. The only generated ID was
generated over an empty table, so it was fresh; the second `Save` finds the
session still marked new, calls Create for the key that has a row, and the
table holds two rows with one key. -/
theorem second_Save_duplicates_key :
    keys emptyWorld = [] ∧
    keys firstSave.2.2 = ["MFRGGZDF"] ∧
    firstSave.2.1.IsNew = true ∧ firstSave.2.1.ID = "MFRGGZDF" ∧
    secondSave.1 = Outcome.ret none ∧
    secondSave.2.2.log =
      firstSave.2.2.log ++ [DbOp.create "MFRGGZDF" "alice" 4600000000003] ∧
    keys secondSave.2.2 = ["MFRGGZDF", "MFRGGZDF"] ∧
    ¬ (keys secondSave.2.2).Nodup := by
  decide

/-- The condition on the lookup in C10 is needed: the session of the first
`Save` comes back with its cookie, the lookup fails with a driver error, `New`
returns the session marked new with the decoded ID, and `Save` inserts a
second row with that key. -/
theorem Save_after_failed_lookup_duplicates_key :
    keys firstSave.2.2 = ["MFRGGZDF"] ∧
    (New findFailEnv firstSave.2.2 firstSave.2.2.resp "sid").1 =
      ({ ID := "MFRGGZDF", name := "sid", Values := [], Options := demoOptions,
         IsNew := true }, some (Err.driver 9)) ∧
    keys (handle findFailEnv firstSave.2.2 firstSave.2.2.resp "sid" aliceValues
      demoOptions).2.2 = ["MFRGGZDF", "MFRGGZDF"] := by
  decide

/-- The condition in C10 that no other call comes between `New` and `Save` is
needed: two requests carry a cookie whose row is gone, both call `New` before
either calls `Save`, both sessions are marked new with the ID K, and the two
calls of `Save` insert two rows with the key K. -/
theorem interleaved_requests_duplicate_key :
    (New demoEnv emptyWorld [cookieK] "sid").1 =
      ({ ID := "K", name := "sid", Values := [], Options := demoOptions, IsNew := true },
        some Err.errNoRows) ∧
    (New demoEnv (New demoEnv emptyWorld [cookieK] "sid").2 [cookieK] "sid").1 =
      ({ ID := "K", name := "sid", Values := [], Options := demoOptions, IsNew := true },
        some Err.errNoRows) ∧
    keys (Save demoEnv
      (Save demoEnv (New demoEnv (New demoEnv emptyWorld [cookieK] "sid").2 [cookieK] "sid").2
        (New demoEnv emptyWorld [cookieK] "sid").1.1).2.2
      (New demoEnv (New demoEnv emptyWorld [cookieK] "sid").2 [cookieK] "sid").1.1).2.2 =
      ["K", "K"] := by
  decide

theorem not_mem_keys_of_find_none (w : World) (id : String)
    (h : w.rows.find? (fun row => row.Key == id) = none) : id ∉ keys w := by
  intro hm
  simp only [keys, List.mem_map] at hm
  obtain ⟨row, hr, hk⟩ := hm
  have := List.find?_eq_none.mp h row hr
  simp [hk] at this

theorem New_marked_new_has_no_row (env : Env) (w : World) (r : Request) (name : String)
    (hs : LookupSound env w r name) (hnew : (New env w r name).1.1.IsNew = true) :
    (New env w r name).1.1.ID = "" ∨ (New env w r name).1.1.ID ∉ keys w := by
  cases hc : r.Cookie name with
  | none =>
    left
    rw [New_no_cookie env w r name hc]
    rfl
  | some c =>
    cases hd : env.decodeID w.Codecs name c.Value with
    | error e =>
      left
      rw [New_decode_error env w r name c e hc hd]
      rfl
    | ok id =>
      obtain ⟨hfa, hdec⟩ := hs c id hc hd
      cases hrow : w.rows.find? (fun row => row.Key == id) with
      | none =>
        right
        have hf : (qlSession.FindByKey env (keyRecord id) w).1 = some Err.errNoRows := by
          simp [qlSession.FindByKey, keyRecord, hfa, hrow]
        rw [New_find_error env w r name c id _ hc hd hf]
        exact not_mem_keys_of_find_none w id hrow
      | some row =>
        exfalso
        obtain ⟨v, hv⟩ := hdec row hrow
        rw [New_loaded env w r name c id row v hc hd hfa hrow hv] at hnew
        simp at hnew

theorem assignID_ID (env : Env) (w : World) (session : Session) :
    (assignID env w session).1.ID =
      if session.ID = "" then trimRightEq (env.randomB32 w.rng) else session.ID := by
  unfold assignID generateID
  split <;> rfl

theorem handle_key_has_no_row (env : Env) (w : World) (r : Request) (name : String)
    (V : Values) (opts : Options)
    (hs : LookupSound env w r name)
    (hf : GeneratesFreshID env (New env w r name).2 (New env w r name).1.1)
    (hnew : (edited (New env w r name).1.1 V opts).IsNew = true) :
    (assignID env (New env w r name).2 (edited (New env w r name).1.1 V opts)).1.ID ∉
      keys (New env w r name).2 := by
  have hid : (edited (New env w r name).1.1 V opts).ID = (New env w r name).1.1.ID := rfl
  rw [assignID_ID, hid]
  by_cases h0 : (New env w r name).1.1.ID = ""
  · rw [if_pos h0]
    exact hf h0
  · rw [if_neg h0, keys_New]
    rcases New_marked_new_has_no_row env w r name hs hnew with h | h
    · exact absurd h h0
    · exact h

/-- C10, amended: assume a generated session ID is the key of no row. Then
(1) in every state reachable from an empty table by `MaxAge`, `New`, `Delete`
on any session, `Save` on any session with IsNew=false, and requests that
call `New` and then `Save` on the session `New` returned (values and options
changed freely, no other call on the store in between, the lookup of `New`
meeting no driver error and no row whose data does not decode), the table
holds at most one row per key; and (2) in any state, when the `Save` of such
a request issues a Create, the session was marked new by `New` and the key of
the Create has no row. -/
theorem key_uniqueness (env : Env) :
    (∀ w, Reach env w → (keys w).Nodup) ∧
    (∀ w r name V opts k d x, LookupSound env w r name →
      GeneratesFreshID env (New env w r name).2 (New env w r name).1.1 →
      (handle env w r name V opts).2.2.log =
        (New env w r name).2.log ++ [DbOp.create k d x] →
      (New env w r name).1.1.IsNew = true ∧ k ∉ keys (New env w r name).2 ∧ k ∉ keys w) := by
  constructor
  · intro w h
    induction h with
    | init w hrows => simp [keys, hrows]
    | maxAge w m _ ih => exact ih
    | new w r name _ ih =>
      rw [keys_New]
      exact ih
    | delete w session _ ih =>
      exact List.Nodup.sublist (keys_destroy env w session) ih
    | saveResumed w session _ hres ih =>
      rcases keys_Save env w session with hsub | ⟨hnew, _, _⟩
      · exact List.Nodup.sublist hsub ih
      · rw [hres] at hnew
        cases hnew
    | saveAfterNew w r name V opts _ hs hf ih =>
      have ih2 : (keys (New env w r name).2).Nodup := by
        rw [keys_New]
        exact ih
      unfold handle
      rcases keys_Save env (New env w r name).2 (edited (New env w r name).1.1 V opts)
        with hsub | ⟨hnew, _, hk⟩
      · exact List.Nodup.sublist hsub ih2
      · rw [hk]
        apply List.Nodup.append ih2 (List.nodup_singleton _)
        intro a ha hb
        simp only [List.mem_singleton] at hb
        subst hb
        exact handle_key_has_no_row env w r name V opts hs hf hnew ha
  · intro w r name V opts k d x hs hf hlog
    obtain ⟨hnew, _, hk⟩ := Save_create_only_if_new env (New env w r name).2
      (edited (New env w r name).1.1 V opts) k d x hlog
    have hfresh := handle_key_has_no_row env w r name V opts hs hf hnew
    rw [← hk] at hfresh
    refine ⟨hnew, hfresh, ?_⟩
    rw [← keys_New env w r name]
    exact hfresh

theorem LookupSound_no_cookie (env : Env) (w : World) (r : Request) (name : String)
    (hc : r.Cookie name = none) : LookupSound env w r name := by
  intro c id hc1
  rw [hc] at hc1
  cases hc1

theorem LookupSound_of_loaded (env : Env) (w : World) (r : Request) (name : String)
    (c0 : Cookie) (id0 : String) (row0 : qlSession) (v0 : Values)
    (hc : r.Cookie name = some c0)
    (hd : env.decodeID w.Codecs name c0.Value = Except.ok id0)
    (hfa : env.fault w.log.length (DbOp.find id0) TxStage.exec = none)
    (hrow : w.rows.find? (fun row => row.Key == id0) = some row0)
    (hv : env.decodeValues w.Codecs name row0.Data = Except.ok v0) :
    LookupSound env w r name := by
  intro c id hc1 hd1
  rw [hc] at hc1
  injection hc1 with hc1
  subst hc1
  rw [hd] at hd1
  injection hd1 with hd1
  subst hd1
  refine ⟨hfa, ?_⟩
  intro row hrow1
  rw [hrow] at hrow1
  injection hrow1 with hrow1
  subst hrow1
  exact ⟨v0, hv⟩

/-- Witness of the amended C10: three requests in a row. Two visitors come
without cookie and get two rows under two generated keys; the first comes
back with the cookie, is loaded, and saves again. The table holds two rows
with two different keys; and the Create of the second visit was issued for a
key that had no row. -/
theorem key_uniqueness_witness :
    Reach twoKeyEnv visit3.2.2 ∧
    keys visit3.2.2 = ["MFRGGZDF", "NBSWY3DP"] ∧
    visit3.2.2.log.length = 4 ∧
    (keys visit3.2.2).Nodup ∧
    "NBSWY3DP" ∉ keys visit1.2.2 :=
  have h1 : Reach twoKeyEnv visit1.2.2 :=
    Reach.saveAfterNew emptyWorld [] "sid" aliceValues demoOptions
      (Reach.init emptyWorld rfl)
      (LookupSound_no_cookie twoKeyEnv emptyWorld [] "sid" rfl)
      (fun _ => by decide)
  have h2 : Reach twoKeyEnv visit2.2.2 :=
    Reach.saveAfterNew visit1.2.2 [] "sid" aliceValues demoOptions h1
      (LookupSound_no_cookie twoKeyEnv visit1.2.2 [] "sid" rfl)
      (fun _ => by decide)
  have h3 : Reach twoKeyEnv visit3.2.2 :=
    Reach.saveAfterNew visit2.2.2 visit1.2.2.resp "sid" [] demoOptions h2
      (LookupSound_of_loaded twoKeyEnv visit2.2.2 visit1.2.2.resp "sid"
        (NewCookie "sid" "MFRGGZDF" demoOptions) "MFRGGZDF"
        { Key := "MFRGGZDF", Data := "alice", CreatedOn := 1000000000001,
          UpdatedOn := 1000000000002, ExpiresOn := 4600000000000 }
        aliceValues (by decide) rfl rfl (by decide) rfl)
      (fun h => absurd h (by decide))
  ⟨h3, by decide, by decide, (key_uniqueness twoKeyEnv).1 visit3.2.2 h3,
   ((key_uniqueness twoKeyEnv).2 visit1.2.2 [] "sid" aliceValues demoOptions
      "NBSWY3DP" "alice" 4600000000003
      (LookupSound_no_cookie twoKeyEnv visit1.2.2 [] "sid" rfl)
      (fun _ => by decide) (by decide)).2.2⟩

/-! ## Save followed by New -/

theorem saveExpiresOn_some (env : Env) (w : World) (session : Session)
    (h : session.Values.index "expires_on" = Value.null ∨
      ∃ e, session.Values.index "expires_on" = Value.time e) :
    ∃ x w1, saveExpiresOn env w session = some (x, w1) := by
  rcases h with h | ⟨e, h⟩
  · exact ⟨_, _, saveExpiresOn_null env w session h⟩
  · rw [saveExpiresOn_time env w session e h]
    split
    · exact ⟨_, _, rfl⟩
    · exact ⟨_, _, rfl⟩

theorem find_append_fresh (rows : List qlSession) (row : qlSession)
    (h : row.Key ∉ rows.map fun r => r.Key) :
    (rows ++ [row]).find? (fun r => r.Key == row.Key) = some row := by
  induction rows with
  | nil => simp
  | cons a t ih =>
    simp only [List.map_cons, List.mem_cons, not_or] at h
    have hne : (a.Key == row.Key) = false := by
      rw [beq_eq_false_iff_ne]
      exact fun hh => h.1 hh.symm
    simp only [List.cons_append, List.find?_cons, hne]
    exact ih h.2

/-- Round trip of a new session, for value maps whose `expires_on` entry is
absent, nil or a time: if the codec encodes the values and the generated ID
and decodes the results back, the generated ID has no row yet, and the insert
and the lookup do not fail, then `Save` returns nil, and `New` on a request
whose cookie of that name is the last cookie `Save` wrote returns the session
with IsNew=false, the generated ID, the same values, and a nil error. -/
theorem Save_New_round_trip (env : Env) (w : World) (name : String) (V : Values)
    (opts : Options) (dV cV : String) (r : Request)
    (hm : 0 ≤ opts.MaxAge)
    (hexp : V.index "expires_on" = Value.null ∨ ∃ e, V.index "expires_on" = Value.time e)
    (hencV : env.encodeValues w.Codecs name V = Except.ok dV)
    (hdecV : env.decodeValues w.Codecs name dV = Except.ok V)
    (hencID : env.encodeID w.Codecs name (trimRightEq (env.randomB32 w.rng)) = Except.ok cV)
    (hdecID : env.decodeID w.Codecs name cV = Except.ok (trimRightEq (env.randomB32 w.rng)))
    (hfresh : trimRightEq (env.randomB32 w.rng) ∉ keys w)
    (hcreate : ∀ x, txFault env w.log.length
      (DbOp.create (trimRightEq (env.randomB32 w.rng)) dV x) = none)
    (hfind : env.fault (w.log.length + 1)
      (DbOp.find (trimRightEq (env.randomB32 w.rng))) TxStage.exec = none)
    (hreq : r.Cookie name =
      (Save env w (markedNew "" name V opts)).2.2.resp.getLast?) :
    (Save env w (markedNew "" name V opts)).1 = Outcome.ret none ∧
    (Save env w (markedNew "" name V opts)).2.1.ID = trimRightEq (env.randomB32 w.rng) ∧
    (New env (Save env w (markedNew "" name V opts)).2.2 r name).1 =
      ({ ID := trimRightEq (env.randomB32 w.rng), name := name, Values := V,
         Options := w.Options, IsNew := false }, none) := by
  have ha : assignID env w (markedNew "" name V opts) =
      ((markedNew (trimRightEq (env.randomB32 w.rng)) name V opts),
        { w with rng := w.rng + 1 }) := by
    simp [assignID, generateID, markedNew]
  obtain ⟨x, w1, hx⟩ := saveExpiresOn_some env { w with rng := w.rng + 1 }
    (markedNew (trimRightEq (env.randomB32 w.rng)) name V opts) hexp
  obtain ⟨hresp, hlog, hrows, hcodecs, hopts, _⟩ := saveExpiresOn_keeps env _ w1 _ x hx
  simp only at hresp hlog hrows hcodecs hopts
  have hc1 : txFault env w1.log.length
      (DbOp.create (trimRightEq (env.randomB32 w.rng)) dV x) = none := by
    rw [hlog]
    exact hcreate x
  have hsave : save env { w with rng := w.rng + 1 }
      (markedNew (trimRightEq (env.randomB32 w.rng)) name V opts) =
      (Outcome.ret none,
        { w1 with
          log := w1.log ++ [DbOp.create (trimRightEq (env.randomB32 w.rng)) dV x],
          tick := w1.tick + 1 + 1,
          rows := w1.rows ++
            [{ Key := trimRightEq (env.randomB32 w.rng), Data := dV,
               CreatedOn := env.clock w1.tick, UpdatedOn := env.clock (w1.tick + 1),
               ExpiresOn := x }] }) := by
    simp only [markedNew] at hx ⊢
    simp only [save_unfold, hencV, hx, writeRecord, if_true]
    rw [Create_ok env _ w1 hc1]
    rfl
  have hS : Save env w (markedNew "" name V opts) =
      (Outcome.ret none,
        (markedNew (trimRightEq (env.randomB32 w.rng)) name V opts),
        SetCookie
          { w1 with
            log := w1.log ++ [DbOp.create (trimRightEq (env.randomB32 w.rng)) dV x],
            tick := w1.tick + 1 + 1,
            rows := w1.rows ++
              [{ Key := trimRightEq (env.randomB32 w.rng), Data := dV,
                 CreatedOn := env.clock w1.tick, UpdatedOn := env.clock (w1.tick + 1),
                 ExpiresOn := x }] }
          (NewCookie name cV opts)) := by
    have hn : ∀ k, (markedNew k name V opts).name = name := fun _ => rfl
    have hi : ∀ k, (markedNew k name V opts).ID = k := fun _ => rfl
    have ho : ∀ k, (markedNew k name V opts).Options = opts := fun _ => rfl
    rw [Save_nonneg env w _ hm, ha]
    simp only [hsave, hcodecs, hn, hi, ho, hencID]
  rw [hS] at hreq ⊢
  refine ⟨rfl, rfl, ?_⟩
  have hck : r.Cookie name = some (NewCookie name cV opts) := by
    rw [hreq]
    simp [SetCookie]
  refine (New_loaded env _ r name (NewCookie name cV opts)
    (trimRightEq (env.randomB32 w.rng))
    { Key := trimRightEq (env.randomB32 w.rng), Data := dV,
      CreatedOn := env.clock w1.tick, UpdatedOn := env.clock (w1.tick + 1),
      ExpiresOn := x } V hck ?_ ?_ ?_ ?_).trans ?_
  · simp only [SetCookie, hcodecs, NewCookie]
    exact hdecID
  · simp only [SetCookie, hlog, List.length_append, List.length_singleton]
    exact hfind
  · simp only [SetCookie, hrows]
    apply find_append_fresh w.rows
      { Key := trimRightEq (env.randomB32 w.rng), Data := dV,
        CreatedOn := env.clock w1.tick, UpdatedOn := env.clock (w1.tick + 1),
        ExpiresOn := x }
    exact hfresh
  · simp only [SetCookie, hcodecs]
    exact hdecV
  · simp only [SetCookie, hopts]

/-- C1 at a value map whose `expires_on` entry is a string: the codec
encodes the map and decodes it back, the session is new with an empty ID and
max-age 3600, and `Save` panics: it writes no row and no cookie, so there is
no cookie to call `New` with. -/
theorem round_trip_breaks_on_text_expiry :
    demoEnv.encodeValues emptyWorld.Codecs "sid" textExpiryValues = Except.ok "text" ∧
    demoEnv.decodeValues emptyWorld.Codecs "sid" "text" = Except.ok textExpiryValues ∧
    0 < (markedNew "" "sid" textExpiryValues demoOptions).Options.MaxAge ∧
    (Save demoEnv emptyWorld (markedNew "" "sid" textExpiryValues demoOptions)).1 =
      Outcome.panicked ∧
    (Save demoEnv emptyWorld (markedNew "" "sid" textExpiryValues demoOptions)).2.2.resp = [] ∧
    (Save demoEnv emptyWorld (markedNew "" "sid" textExpiryValues demoOptions)).2.2.rows = [] :=
  ⟨rfl, rfl, by decide, by decide, by decide, by decide⟩

/-! ## The type assertion on expires_on -/

theorem save_panics (env : Env) (w : World) (session : Session) (encoded : String)
    (henc : env.encodeValues w.Codecs session.name session.Values = Except.ok encoded)
    (hval : (∃ t, session.Values.index "expires_on" = Value.str t) ∨
      ∃ n, session.Values.index "expires_on" = Value.num n) :
    save env w session = (Outcome.panicked, w) := by
  rcases hval with ⟨t, h⟩ | ⟨n, h⟩ <;> simp [save_unfold, henc, saveExpiresOn, h]

/-- C7 at value maps whose `expires_on` entry is a number or a string: the
options are set, the max-age is 3600, the values encode, and `Save` ends in a
panic instead of returning. -/
theorem Save_panics_on_expires_on_of_other_type :
    0 ≤ (resumedSession numberExpiryValues).Options.MaxAge ∧
    (Save demoEnv resumedWorld (resumedSession numberExpiryValues)).1 = Outcome.panicked ∧
    (Save demoEnv resumedWorld (resumedSession textExpiryValues)).1 = Outcome.panicked ∧
    (Save demoEnv emptyWorld (markedNew "" "sid" numberExpiryValues demoOptions)).1 =
      Outcome.panicked := by
  decide

/-! ## What Update writes -/

theorem Update_keeps_ExpiresOn (env : Env) (s : qlSession) (w : World) :
    ((s.Update env w).2.rows.map fun row => row.ExpiresOn) =
      w.rows.map fun row => row.ExpiresOn := by
  cases h : txFault env w.log.length (DbOp.update s.Key s.Data) with
  | none =>
    rw [Update_ok env s w h]
    simp only [List.map_map]
    apply List.map_congr_left
    intro row _
    simp only [Function.comp]
    split <;> rfl
  | some e =>
    rw [Update_fail env s w e h]

/-- C8 at a resumed session (IsNew=false, max-age 3600) whose row expires at
5 ns, saved at 1000 s: `save` computes the expiry 4600 s, `Save` returns nil
after one Update, and the row still expires at 5 ns, which is earlier than
now + max-age: the statement of Update carries the key and the data only. -/
theorem Update_drops_computed_expiry :
    (saveExpiresOn demoEnv resumedWorld (resumedSession aliceValues)).map Prod.fst =
      some 4600000000000 ∧
    (Save demoEnv resumedWorld (resumedSession aliceValues)).1 = Outcome.ret none ∧
    (Save demoEnv resumedWorld (resumedSession aliceValues)).2.2.log =
      [DbOp.update "K" "alice"] ∧
    (Save demoEnv resumedWorld (resumedSession aliceValues)).2.2.rows =
      [{ Key := "K", Data := "alice", CreatedOn := 1, UpdatedOn := 1000000000001,
         ExpiresOn := 5 }] := by
  decide

end qlstore
